import Mathlib

/-!
Verification of the Grendel-GS distributed-training core.

We give a shallow embedding, in Lean, of the rank-topology, chunking,
scheduling-cadence, densification, strategy-measurement, startup and
checkpoint-loading logic of `train.py` and `utils/general_utils.py`, and
prove the specification's claims about it.

Conventions: Python non-negative integers become `Nat` (Python `//` and `%`
on non-negative integers agree with `Nat` division and modulus); memory
sizes in GB become `Rat`; fallible code (Python `assert`) returns
`Except String`.
-/

namespace GrendelGS

/-- Python `list(range(start, stop, step))` for a positive `step`
(the sources only ever call `range` with a positive step). -/
def pyRange (start stop step : ℕ) : List ℕ :=
  (List.range ((stop - start + step - 1) / step)).map (fun i => start + i * step)

/-- From `init_distributed` (general_utils.py line 166): `mp_rank = GLOBAL_RANK % args.mp_size`. -/
def mp_rank (r mp_size : ℕ) : ℕ := r % mp_size

/-- From `init_distributed` (general_utils.py line 165): `dp_rank = GLOBAL_RANK // args.mp_size`. -/
def dp_rank (r mp_size : ℕ) : ℕ := r / mp_size

/-- From `init_distributed` (general_utils.py line 170): the data-parallel group built
for column `col`: `list(range(rank, WORLD_SIZE, args.mp_size))`. -/
def dp_group_ranks (world_size mp_size col : ℕ) : List ℕ :=
  pyRange col world_size mp_size

/-- From `init_distributed` (general_utils.py line 176): the model-parallel group built
for row `row`: `list(range(rank*args.mp_size, (rank+1)*args.mp_size))`. -/
def mp_group_ranks (mp_size row : ℕ) : List ℕ :=
  pyRange (row * mp_size) ((row + 1) * mp_size) 1

/-- Embedding of `get_local_chunk_l_r` (general_utils.py lines 221-225). -/
def get_local_chunk_l_r (array_length world_size rank : ℕ) : ℕ × ℕ :=
  let chunk_size := (array_length + world_size - 1) / world_size
  let l := rank * chunk_size
  let r := min (l + chunk_size) array_length
  (l, r)

/-- Embedding of `check_update_at_this_iter` (general_utils.py lines 108-117). -/
def check_update_at_this_iter (iteration bsz update_interval update_residual : ℕ) : Bool :=
  let residual_l := iteration % update_interval
  let residual_r := residual_l + bsz
  if residual_l ≤ update_residual ∧ update_residual < residual_r then
    true
  else if residual_l ≤ update_residual + update_interval ∧
      update_residual + update_interval < residual_r then
    true
  else
    false

/- ### Helper lemmas on `pyRange` -/

theorem mem_pyRange {start stop step x : ℕ} :
    x ∈ pyRange start stop step ↔
      ∃ i, i < (stop - start + step - 1) / step ∧ x = start + i * step := by
  simp only [pyRange, List.mem_map, List.mem_range]
  constructor
  · rintro ⟨i, hi, rfl⟩
    exact ⟨i, hi, rfl⟩
  · rintro ⟨i, hi, rfl⟩
    exact ⟨i, hi, rfl⟩

theorem pyRange_one_count (s e : ℕ) :
    (e - s + 1 - 1) / 1 = e - s := by
  simp

theorem mem_pyRange_one {s e x : ℕ} :
    x ∈ pyRange s e 1 ↔ s ≤ x ∧ x < e := by
  rw [mem_pyRange]
  constructor
  · rintro ⟨i, hi, rfl⟩
    rw [pyRange_one_count] at hi
    constructor
    · omega
    · omega
  · rintro ⟨hs, he⟩
    refine ⟨x - s, ?_, ?_⟩
    · rw [pyRange_one_count]; omega
    · omega

theorem mem_dp_group_ranks {W mp dp col x : ℕ} (hmp : 0 < mp) (hdp : 0 < dp)
    (hW : W = mp * dp) (hcol : col < mp) :
    x ∈ dp_group_ranks W mp col ↔ ∃ i, i < dp ∧ x = col + i * mp := by
  have hmpW : mp ≤ mp * dp := Nat.le_mul_of_pos_right mp hdp
  have hcount : (W - col + mp - 1) / mp = dp := by
    have h1 : W - col + mp - 1 = mp * dp + (mp - 1 - col) := by omega
    rw [h1, Nat.mul_add_div hmp, Nat.div_eq_of_lt (by omega)]
    omega
  rw [dp_group_ranks, mem_pyRange, hcount]

/- ### Claim theorems on the rank topology -/

/-- C1: `init_distributed` assigns each rank `r` its groups by `dp_row = r / mp`,
`mp_column = r % mp`: the model-parallel group of `r` is the contiguous block
`[dp_row*mp, dp_row*mp + mp)`, its data-parallel group is the strided set
`{mp_column + i*mp | i < dp}`, every rank lies in exactly one group of each kind,
`W = dp * mp`, and for `W = 4, dp = 2` the model-parallel groups are `[0,1]`, `[2,3]`
and the data-parallel groups are `[0,2]`, `[1,3]`. -/
theorem init_distributed_topology (W dp : ℕ) (hdp : 0 < dp) (hW : 0 < W) (hdvd : dp ∣ W) :
    (W = dp * (W / dp)) ∧
    (∀ r, r < W → ∀ x, (x ∈ mp_group_ranks (W / dp) (dp_rank r (W / dp)) ↔
        dp_rank r (W / dp) * (W / dp) ≤ x ∧ x < dp_rank r (W / dp) * (W / dp) + W / dp)) ∧
    (∀ r, r < W → ∀ x, (x ∈ dp_group_ranks W (W / dp) (mp_rank r (W / dp)) ↔
        ∃ i, i < dp ∧ x = mp_rank r (W / dp) + i * (W / dp))) ∧
    (∀ r, r < W → ∃! row, row < dp ∧ r ∈ mp_group_ranks (W / dp) row) ∧
    (∀ r, r < W → ∃! col, col < W / dp ∧ r ∈ dp_group_ranks W (W / dp) col) ∧
    (mp_group_ranks 2 0 = [0, 1] ∧ mp_group_ranks 2 1 = [2, 3] ∧
     dp_group_ranks 4 2 0 = [0, 2] ∧ dp_group_ranks 4 2 1 = [1, 3]) := by
  obtain ⟨mp, rfl⟩ := hdvd
  have hmp : 0 < mp := by
    rcases Nat.eq_zero_or_pos mp with h | h
    · subst h; rw [Nat.mul_zero] at hW; omega
    · exact h
  have hq : dp * mp / dp = mp := Nat.mul_div_cancel_left mp hdp
  rw [hq]
  have hWcomm : dp * mp = mp * dp := Nat.mul_comm dp mp
  have hmem_mp : ∀ row x, x ∈ mp_group_ranks mp row ↔ row * mp ≤ x ∧ x < row * mp + mp := by
    intro row x
    rw [mp_group_ranks, mem_pyRange_one]
    have : (row + 1) * mp = row * mp + mp := by ring
    omega
  refine ⟨rfl, ?_, ?_, ?_, ?_, by decide⟩
  · intro r _ x
    exact hmem_mp (dp_rank r mp) x
  · intro r hr x
    exact mem_dp_group_ranks hmp hdp hWcomm (Nat.mod_lt r hmp)
  · intro r hr
    have hdm := Nat.div_add_mod r mp
    have hmlt := Nat.mod_lt r hmp
    have hcomm : r / mp * mp = mp * (r / mp) := Nat.mul_comm _ _
    refine ⟨r / mp, ⟨?_, ?_⟩, ?_⟩
    · exact (Nat.div_lt_iff_lt_mul hmp).mpr hr
    · rw [hmem_mp]
      omega
    · intro row ⟨hrow, hmem⟩
      rw [hmem_mp] at hmem
      exact (Nat.div_eq_of_lt_le (by omega) (by rw [Nat.succ_mul]; omega)).symm
  · intro r hr
    have hdm := Nat.div_add_mod r mp
    have hmlt := Nat.mod_lt r hmp
    have hcomm : r / mp * mp = mp * (r / mp) := Nat.mul_comm _ _
    refine ⟨r % mp, ⟨hmlt, ?_⟩, ?_⟩
    · rw [mem_dp_group_ranks hmp hdp hWcomm hmlt]
      exact ⟨r / mp, (Nat.div_lt_iff_lt_mul hmp).mpr hr, by omega⟩
    · intro col ⟨hcol, hmem⟩
      rw [mem_dp_group_ranks hmp hdp hWcomm hcol] at hmem
      obtain ⟨i, hi, hEq⟩ := hmem
      have : r % mp = col := by
        rw [hEq, Nat.add_mul_mod_self_right, Nat.mod_eq_of_lt hcol]
      omega

/-- Witness for C1 at `W = 4, dp = 2`. -/
theorem init_distributed_topology_witness :
    (0 < 2 ∧ 0 < 4 ∧ 2 ∣ 4) ∧
    ((4 = 2 * (4 / 2)) ∧
    (∀ r, r < 4 → ∀ x, (x ∈ mp_group_ranks (4 / 2) (dp_rank r (4 / 2)) ↔
        dp_rank r (4 / 2) * (4 / 2) ≤ x ∧ x < dp_rank r (4 / 2) * (4 / 2) + 4 / 2)) ∧
    (∀ r, r < 4 → ∀ x, (x ∈ dp_group_ranks 4 (4 / 2) (mp_rank r (4 / 2)) ↔
        ∃ i, i < 2 ∧ x = mp_rank r (4 / 2) + i * (4 / 2))) ∧
    (∀ r, r < 4 → ∃! row, row < 2 ∧ r ∈ mp_group_ranks (4 / 2) row) ∧
    (∀ r, r < 4 → ∃! col, col < 4 / 2 ∧ r ∈ dp_group_ranks 4 (4 / 2) col) ∧
    (mp_group_ranks 2 0 = [0, 1] ∧ mp_group_ranks 2 1 = [2, 3] ∧
     dp_group_ranks 4 2 0 = [0, 2] ∧ dp_group_ranks 4 2 1 = [1, 3])) :=
  ⟨⟨by decide, by decide, by decide⟩,
    init_distributed_topology 4 2 (by decide) (by decide) (by decide)⟩

/-- C2: for every `array_length` and every `world_size ≥ 1`, the intervals
`[l, r)` returned by `get_local_chunk_l_r` for ranks `0 .. world_size - 1` are
pairwise disjoint and their union is exactly `[0, array_length)`. -/
theorem get_local_chunk_l_r_disjoint_cover (L W : ℕ) (hW : 1 ≤ W) :
    (∀ x, x < L ↔ ∃ rank, rank < W ∧
        (get_local_chunk_l_r L W rank).1 ≤ x ∧ x < (get_local_chunk_l_r L W rank).2) ∧
    (∀ i j x, i < j →
        ¬(((get_local_chunk_l_r L W i).1 ≤ x ∧ x < (get_local_chunk_l_r L W i).2) ∧
          ((get_local_chunk_l_r L W j).1 ≤ x ∧ x < (get_local_chunk_l_r L W j).2))) := by
  obtain ⟨c, hc⟩ : ∃ c, (L + W - 1) / W = c := ⟨_, rfl⟩
  have hchunk : ∀ rank, get_local_chunk_l_r L W rank =
      (rank * c, min (rank * c + c) L) := by
    intro rank
    show (rank * ((L + W - 1) / W),
      min (rank * ((L + W - 1) / W) + (L + W - 1) / W) L) = _
    rw [hc]
  have hdm := Nat.div_add_mod (L + W - 1) W
  rw [hc] at hdm
  have hmlt := Nat.mod_lt (L + W - 1) (by omega : 0 < W)
  have hLWc : L ≤ W * c := by omega
  constructor
  · intro x
    constructor
    · intro hx
      have hcpos : 0 < c := by
        rcases Nat.eq_zero_or_pos c with h | h
        · rw [h, Nat.mul_zero] at hLWc; omega
        · exact h
      have h1 := Nat.div_add_mod x c
      have h2 := Nat.mod_lt x hcpos
      have h3 : x / c * c = c * (x / c) := Nat.mul_comm _ _
      refine ⟨x / c, ?_, ?_, ?_⟩
      · have h4 : x / c < W ↔ x < W * c := Nat.div_lt_iff_lt_mul hcpos
        omega
      · rw [hchunk]
        exact Nat.div_mul_le_self x c
      · rw [hchunk]
        simp only
        omega
    · rintro ⟨rank, _, _, hxr⟩
      rw [hchunk] at hxr
      simp only at hxr
      omega
  · rintro i j x hij ⟨⟨hil, hir⟩, ⟨hjl, hjr⟩⟩
    rw [hchunk] at hir hjl
    simp only at hir hjl
    have hstep : i * c + c ≤ j * c := by
      have h5 : (i + 1) * c ≤ j * c := Nat.mul_le_mul_right c (by omega)
      have h6 : (i + 1) * c = i * c + c := by ring
      omega
    omega

/-- Witness for C2 at `L = 5, W = 2`. -/
theorem get_local_chunk_l_r_disjoint_cover_witness :
    1 ≤ 2 ∧
    ((∀ x, x < 5 ↔ ∃ rank, rank < 2 ∧
        (get_local_chunk_l_r 5 2 rank).1 ≤ x ∧ x < (get_local_chunk_l_r 5 2 rank).2) ∧
    (∀ i j x, i < j →
        ¬(((get_local_chunk_l_r 5 2 i).1 ≤ x ∧ x < (get_local_chunk_l_r 5 2 i).2) ∧
          ((get_local_chunk_l_r 5 2 j).1 ≤ x ∧ x < (get_local_chunk_l_r 5 2 j).2)))) :=
  ⟨by decide, get_local_chunk_l_r_disjoint_cover 5 2 (by decide)⟩

theorem check_update_at_this_iter_eq (iteration bsz I u : ℕ) :
    check_update_at_this_iter iteration bsz I u = true ↔
      (iteration % I ≤ u ∧ u < iteration % I + bsz) ∨
      (iteration % I ≤ u + I ∧ u + I < iteration % I + bsz) := by
  unfold check_update_at_this_iter
  simp only
  split
  · simp_all
  · split
    · simp_all
    · simp_all

/-- C10: `check_update_at_this_iter iteration bsz I u` returns `true` iff some
integer `i` with `iteration ≤ i < iteration + bsz` satisfies `i % I = u`
(for `bsz ≥ 1`, `I ≥ 1`, `u < I`); this predicate gates densification, opacity
reset, SH-degree increase and logging at batch granularity. -/
theorem check_update_at_this_iter_correct (iteration bsz I u : ℕ)
    (hb : 1 ≤ bsz) (hI : 1 ≤ I) (hu : u < I) :
    check_update_at_this_iter iteration bsz I u = true ↔
      ∃ i, iteration ≤ i ∧ i < iteration + bsz ∧ i % I = u := by
  rw [check_update_at_this_iter_eq]
  have hdm := Nat.div_add_mod iteration I
  have hrl := Nat.mod_lt iteration (by omega : 0 < I)
  constructor
  · rintro (⟨h1, h2⟩ | ⟨h1, h2⟩)
    · refine ⟨iteration + (u - iteration % I), by omega, by omega, ?_⟩
      have hshape : iteration + (u - iteration % I) = I * (iteration / I) + u := by
        omega
      rw [hshape, Nat.mul_add_mod, Nat.mod_eq_of_lt hu]
    · refine ⟨iteration + (u + I - iteration % I), by omega, by omega, ?_⟩
      have hshape : iteration + (u + I - iteration % I) =
          I * (iteration / I + 1) + u := by
        have : I * (iteration / I + 1) = I * (iteration / I) + I := by ring
        omega
      rw [hshape, Nat.mul_add_mod, Nat.mod_eq_of_lt hu]
  · rintro ⟨i, hle, hlt, hmod⟩
    obtain ⟨t, rfl⟩ : ∃ t, i = iteration + t := ⟨i - iteration, by omega⟩
    have hdm2 := Nat.div_add_mod (iteration % I + t) I
    have hm2 := Nat.mod_lt (iteration % I + t) (by omega : 0 < I)
    have hmod2 : (iteration + t) % I = (iteration % I + t) % I := by
      conv_lhs => rw [← hdm]
      rw [Nat.add_assoc, Nat.mul_add_mod]
    rw [hmod2] at hmod
    rcases Nat.eq_zero_or_pos ((iteration % I + t) / I) with hk | hk
    · rw [hk, Nat.mul_zero] at hdm2
      left; omega
    · right
      have hIk : I * 1 ≤ I * ((iteration % I + t) / I) :=
        Nat.mul_le_mul_left I hk
      omega

/-- Witness for C10 at `iteration = 7, bsz = 4, I = 5, u = 1`. -/
theorem check_update_at_this_iter_correct_witness :
    (1 ≤ 4 ∧ 1 ≤ 5 ∧ 1 < 5) ∧
    (check_update_at_this_iter 7 4 5 1 = true ↔
      ∃ i, 7 ≤ i ∧ i < 7 + 4 ∧ i % 5 = 1) :=
  ⟨⟨by decide, by decide, by decide⟩,
    check_update_at_this_iter_correct 7 4 5 1 (by decide) (by decide) (by decide)⟩

/- ### The `densification` routine (train.py lines 49-124)

State threaded through calls: the entity count (`gaussians.get_xyz.shape[0]`),
the global densify-event counter `DENSIFY_ITER` (general_utils.py lines 89-95)
and the mutable flag `args.disable_auto_densification` (written at train.py
line 106, read at line 60).  `gaussians.densify_and_prune` and
`gaussians.redistribute_gaussians` live outside the studied source tree and
only their effect on the entity count matters here, so they are passed as
opaque count-transformers.  `currentMem` is the list gathered at line 102
(one `torch.cuda.memory_allocated()` value per rank); `peakMem` holds the
per-rank `torch.cuda.max_memory_allocated()` values of line 96, which the
source computes and logs but never gathers.  Statistics writes with no
bearing on the entity count (`send_to_gpui_cnt`, `max_radii2D`,
`add_densification_stats`, log writes) are not tracked. -/

structure DensifyArgs where
  densify_until_iter : ℕ
  densify_from_iter : ℕ
  bsz : ℕ
  densification_interval : ℕ
  opacity_reset_interval : ℕ
  stop_update_param : Bool
  redistribute_enabled : Bool
  redistribute_gaussians_frequency : ℕ
deriving DecidableEq

structure DensifyState where
  numPoints : ℕ
  densifyIterCnt : ℕ
  disableAuto : Bool
deriving DecidableEq

inductive DEvent
  | densifyAndPrune
  | redistribute
  | allGatherMemory
  | incDensifyIter
  | resetOpacity
deriving DecidableEq

/-- Python `max` on a list of rationals (raises on `[]`; the source always
passes one gathered value per rank, so the list is nonempty there). -/
def listMax : List ℚ → ℚ
  | [] => 0
  | [x] => x
  | x :: y :: t => max x (listMax (y :: t))

/-- The body of `densification` (train.py lines 49-124), returning the updated
state and, in source order, the point-count-relevant events it performed.
The `assert` at line 76 becomes the `error` arm. -/
def densification (args : DensifyArgs) (iteration : ℕ)
    (densifyEffect redistributeEffect : ℕ → ℕ)
    (currentMem peakMem : List ℚ) (s : DensifyState) :
    Except String (DensifyState × List DEvent) :=
  if s.disableAuto = false ∧ iteration ≤ args.densify_until_iter then
    if args.densify_from_iter < iteration ∧
        check_update_at_this_iter iteration args.bsz args.densification_interval 0 = true then
      if args.stop_update_param = true then
        Except.error "stop_update_param must be false for densification"
      else
        let n1 := densifyEffect s.numPoints
        let redistributeNow : Bool := args.redistribute_enabled &&
          decide (s.densifyIterCnt % args.redistribute_gaussians_frequency = 0)
        let n2 := if redistributeNow then redistributeEffect n1 else n1
        let latch : Bool := if listMax currentMem > mkRat 35 2 then true else s.disableAuto
        let opacityEvents : List DEvent :=
          if check_update_at_this_iter iteration args.bsz args.opacity_reset_interval 0 = true
          then [DEvent.resetOpacity] else []
        Except.ok (⟨n2, s.densifyIterCnt + 1, latch⟩,
          [DEvent.densifyAndPrune] ++
            (if redistributeNow then [DEvent.redistribute] else []) ++
            [DEvent.allGatherMemory, DEvent.incDensifyIter] ++ opacityEvents)
    else
      let opacityEvents : List DEvent :=
        if check_update_at_this_iter iteration args.bsz args.opacity_reset_interval 0 = true
        then [DEvent.resetOpacity] else []
      Except.ok (s, opacityEvents)
  else
    Except.ok (s, [])

/-- One `densification` call's inputs, for iterating the routine. -/
structure DensifyCall where
  args : DensifyArgs
  iteration : ℕ
  densifyEffect : ℕ → ℕ
  redistributeEffect : ℕ → ℕ
  currentMem : List ℚ
  peakMem : List ℚ

/-- Iterate `densification` over a list of calls, accumulating events. -/
def runDensifications : List DensifyCall → DensifyState →
    Except String (DensifyState × List DEvent)
  | [], s => Except.ok (s, [])
  | c :: cs, s =>
    match densification c.args c.iteration c.densifyEffect c.redistributeEffect
        c.currentMem c.peakMem s with
    | Except.error e => Except.error e
    | Except.ok (s1, ev1) =>
      match runDensifications cs s1 with
      | Except.error e => Except.error e
      | Except.ok (s2, ev2) => Except.ok (s2, ev1 ++ ev2)

deriving instance DecidableEq for Except

theorem densification_latched (args : DensifyArgs) (iteration : ℕ)
    (de re : ℕ → ℕ) (cm pm : List ℚ) (s : DensifyState)
    (h : s.disableAuto = true) :
    densification args iteration de re cm pm s = Except.ok (s, []) := by
  unfold densification
  rw [if_neg]
  rintro ⟨h1, -⟩
  rw [h] at h1
  exact absurd h1 (by simp)

/-- A concrete configuration used by witnesses below. -/
def exampleArgs : DensifyArgs :=
  { densify_until_iter := 100, densify_from_iter := 0, bsz := 1,
    densification_interval := 1, opacity_reset_interval := 3,
    stop_update_param := false, redistribute_enabled := false,
    redistribute_gaussians_frequency := 1 }

/-- C4: the memory latch is one-way: a densification event whose gathered
memory exceeds 17.5 sets `disable_auto_densification`, and once the flag is
set every later `densification` call is a no-op — the state (in particular
the entity count) is unchanged and no event, in particular no
`densify_and_prune`, occurs over any sequence of subsequent calls. -/
theorem memory_latch_one_way :
    (∀ (args : DensifyArgs) (iteration : ℕ) (de re : ℕ → ℕ) (cm pm : List ℚ)
        (s s' : DensifyState) (ev : List DEvent),
      densification args iteration de re cm pm s = Except.ok (s', ev) →
      DEvent.densifyAndPrune ∈ ev → listMax cm > mkRat 35 2 →
      s'.disableAuto = true) ∧
    (∀ (calls : List DensifyCall) (s : DensifyState), s.disableAuto = true →
      runDensifications calls s = Except.ok (s, [])) := by
  constructor
  · intro args iteration de re cm pm s s' ev h hmem hgt
    unfold densification at h
    split at h
    · split at h
      · split at h
        · exact absurd h (by simp)
        · simp only [Except.ok.injEq, Prod.mk.injEq] at h
          obtain ⟨hs, -⟩ := h
          rw [← hs]
      · simp only [Except.ok.injEq, Prod.mk.injEq] at h
        obtain ⟨-, hev⟩ := h
        rw [← hev] at hmem
        split at hmem
        · simp at hmem
        · simp at hmem
    · simp only [Except.ok.injEq, Prod.mk.injEq] at h
      obtain ⟨-, hev⟩ := h
      rw [← hev] at hmem
      simp at hmem
  · intro calls
    induction calls with
    | nil => intro s _; rfl
    | cons c cs ih =>
      intro s hs
      unfold runDensifications
      rw [densification_latched c.args c.iteration c.densifyEffect
        c.redistributeEffect c.currentMem c.peakMem s hs]
      dsimp only
      rw [ih s hs]
      rfl

/-- Witness for C4: a call with gathered memory 18 > 17.5 sets the flag, and a
latched state passes through two further calls untouched with no events. -/
theorem memory_latch_one_way_witness :
    ((⟨12, 1, true⟩ : DensifyState).disableAuto = true) ∧
    (runDensifications
        [⟨exampleArgs, 2, (fun n => n + 7), (fun n => n), [1], [1]⟩,
         ⟨exampleArgs, 3, (fun n => n + 9), (fun n => n), [1], [1]⟩]
        ⟨5, 2, true⟩ = Except.ok (⟨5, 2, true⟩, [])) :=
  ⟨memory_latch_one_way.1 exampleArgs 1 (fun n => n + 2) (fun n => n) [18] [18]
      ⟨10, 0, false⟩ ⟨12, 1, true⟩
      [DEvent.densifyAndPrune, DEvent.allGatherMemory, DEvent.incDensifyIter]
      (by decide) (by decide) (by decide),
   memory_latch_one_way.2
      [⟨exampleArgs, 2, (fun n => n + 7), (fun n => n), [1], [1]⟩,
       ⟨exampleArgs, 3, (fun n => n + 9), (fun n => n), [1], [1]⟩]
      ⟨5, 2, true⟩ (by decide)⟩

/-- C7: in any successful `densification` call, `redistribute_gaussians` runs
exactly when a `densify_and_prune` event occurs, redistribution mode is
enabled, and the densify-event counter `DENSIFY_ITER` (read at decision time,
before its increment) is divisible by `redistribute_gaussians_frequency`; the
counter increments exactly once per densify event and never on an iteration
without one. -/
theorem redistribute_cadence (args : DensifyArgs) (iteration : ℕ)
    (de re : ℕ → ℕ) (cm pm : List ℚ) (s s' : DensifyState) (ev : List DEvent)
    (hfreq : 0 < args.redistribute_gaussians_frequency)
    (h : densification args iteration de re cm pm s = Except.ok (s', ev)) :
    (DEvent.redistribute ∈ ev ↔
      (DEvent.densifyAndPrune ∈ ev ∧ args.redistribute_enabled = true ∧
        s.densifyIterCnt % args.redistribute_gaussians_frequency = 0)) ∧
    (s'.densifyIterCnt =
      if DEvent.densifyAndPrune ∈ ev then s.densifyIterCnt + 1
      else s.densifyIterCnt) := by
  unfold densification at h
  split at h
  · split at h
    · split at h
      · exact absurd h (by simp)
      · simp only [Except.ok.injEq, Prod.mk.injEq] at h
        obtain ⟨hs, hev⟩ := h
        subst hs
        subst hev
        cases hb : (args.redistribute_enabled &&
            decide (s.densifyIterCnt % args.redistribute_gaussians_frequency = 0)) with
        | false =>
          have hnot : ¬(args.redistribute_enabled = true ∧
              s.densifyIterCnt % args.redistribute_gaussians_frequency = 0) := by
            rintro ⟨h1, h2⟩
            rw [h1, decide_eq_true h2] at hb
            simp at hb
          cases hop : check_update_at_this_iter iteration args.bsz
              args.opacity_reset_interval 0 with
          | false => simp [hb, hop, hnot]
          | true => simp [hb, hop, hnot]
        | true =>
          have hand := hb
          simp only [Bool.and_eq_true, decide_eq_true_eq] at hand
          cases hop : check_update_at_this_iter iteration args.bsz
              args.opacity_reset_interval 0 with
          | false => simp [hb, hop, hand.1, hand.2]
          | true => simp [hb, hop, hand.1, hand.2]
    · simp only [Except.ok.injEq, Prod.mk.injEq] at h
      obtain ⟨hs, hev⟩ := h
      subst hs
      subst hev
      cases hop : check_update_at_this_iter iteration args.bsz
          args.opacity_reset_interval 0 with
      | false => simp [hop]
      | true => simp [hop]
  · simp only [Except.ok.injEq, Prod.mk.injEq] at h
    obtain ⟨hs, hev⟩ := h
    subst hs
    subst hev
    simp

/-- A concrete configuration with redistribution enabled, frequency 2. -/
def exampleArgsRedistribute : DensifyArgs :=
  { exampleArgs with
    redistribute_enabled := true,
    redistribute_gaussians_frequency := 2 }

/-- Witness for C7: a call at counter 0 with frequency 2 redistributes; the
counter moves to 1. -/
theorem redistribute_cadence_witness :
    (DEvent.redistribute ∈
        [DEvent.densifyAndPrune, DEvent.redistribute,
          DEvent.allGatherMemory, DEvent.incDensifyIter] ↔
      (DEvent.densifyAndPrune ∈
          [DEvent.densifyAndPrune, DEvent.redistribute,
            DEvent.allGatherMemory, DEvent.incDensifyIter] ∧
        exampleArgsRedistribute.redistribute_enabled = true ∧
        (⟨10, 0, false⟩ : DensifyState).densifyIterCnt %
          exampleArgsRedistribute.redistribute_gaussians_frequency = 0)) ∧
    ((⟨13, 1, false⟩ : DensifyState).densifyIterCnt =
      if DEvent.densifyAndPrune ∈
          [DEvent.densifyAndPrune, DEvent.redistribute,
            DEvent.allGatherMemory, DEvent.incDensifyIter]
      then (⟨10, 0, false⟩ : DensifyState).densifyIterCnt + 1
      else (⟨10, 0, false⟩ : DensifyState).densifyIterCnt) :=
  redistribute_cadence exampleArgsRedistribute
    1 (fun n => n + 3) (fun n => n) [1] [1] ⟨10, 0, false⟩ ⟨13, 1, false⟩
    [DEvent.densifyAndPrune, DEvent.redistribute,
      DEvent.allGatherMemory, DEvent.incDensifyIter]
    (by decide) (by decide)

/-- C5 counterexample: at a concrete call, a worker's peak memory usage
(18 GB, above the 17.5 threshold) does not set the latch, because the code
gathers and compares the current allocations (here 1 GB), not peak values;
moreover `densify_and_prune` (position 0) precedes the memory gather
(position 1), so no gather happens before the growth operation. -/
theorem memory_guard_peak_counterexample :
    densification exampleArgs 1 (fun n => n + 2) (fun n => n) [1] [18]
        ⟨10, 0, false⟩ =
      Except.ok (⟨12, 1, false⟩,
        [DEvent.densifyAndPrune, DEvent.allGatherMemory,
          DEvent.incDensifyIter]) ∧
    listMax [18] > mkRat 35 2 ∧
    [DEvent.densifyAndPrune, DEvent.allGatherMemory,
        DEvent.incDensifyIter].get? 0 = some DEvent.densifyAndPrune ∧
    [DEvent.densifyAndPrune, DEvent.allGatherMemory,
        DEvent.incDensifyIter].get? 1 = some DEvent.allGatherMemory :=
  ⟨by decide, by decide, by decide, by decide⟩

/-- C5 (amended): in every successful `densification` call the memory
all-gather happens exactly when `densify_and_prune` does, but directly after
it (and after the optional redistribution), not before; the gathered values
are the workers' current allocations `currentMem`, and the latch decision
compares their maximum against 17.5; when no densify event occurs the flag
is unchanged. -/
theorem memory_guard_gather_current (args : DensifyArgs) (iteration : ℕ)
    (de re : ℕ → ℕ) (cm pm : List ℚ) (s s' : DensifyState) (ev : List DEvent)
    (h : densification args iteration de re cm pm s = Except.ok (s', ev)) :
    (DEvent.allGatherMemory ∈ ev ↔ DEvent.densifyAndPrune ∈ ev) ∧
    (DEvent.densifyAndPrune ∈ ev →
      (∃ r o, (r = [] ∨ r = [DEvent.redistribute]) ∧
        (o = [] ∨ o = [DEvent.resetOpacity]) ∧
        ev = [DEvent.densifyAndPrune] ++ r ++
          [DEvent.allGatherMemory, DEvent.incDensifyIter] ++ o) ∧
      s'.disableAuto =
        (if listMax cm > mkRat 35 2 then true else s.disableAuto)) ∧
    (DEvent.densifyAndPrune ∉ ev → s'.disableAuto = s.disableAuto) := by
  unfold densification at h
  split at h
  · split at h
    · split at h
      · exact absurd h (by simp)
      · simp only [Except.ok.injEq, Prod.mk.injEq] at h
        obtain ⟨hs, hev⟩ := h
        subst hs
        subst hev
        cases hb : (args.redistribute_enabled &&
            decide (s.densifyIterCnt % args.redistribute_gaussians_frequency = 0)) with
        | false =>
          cases hop : check_update_at_this_iter iteration args.bsz
              args.opacity_reset_interval 0 with
          | false =>
            exact ⟨by simp [hb, hop],
              fun _ => ⟨⟨[], [], Or.inl rfl, Or.inl rfl, by simp [hb, hop]⟩, rfl⟩,
              fun hn => absurd (by simp [hb, hop]) hn⟩
          | true =>
            exact ⟨by simp [hb, hop],
              fun _ => ⟨⟨[], [DEvent.resetOpacity], Or.inl rfl, Or.inr rfl,
                by simp [hb, hop]⟩, rfl⟩,
              fun hn => absurd (by simp [hb, hop]) hn⟩
        | true =>
          cases hop : check_update_at_this_iter iteration args.bsz
              args.opacity_reset_interval 0 with
          | false =>
            exact ⟨by simp [hb, hop],
              fun _ => ⟨⟨[DEvent.redistribute], [], Or.inr rfl, Or.inl rfl,
                by simp [hb, hop]⟩, rfl⟩,
              fun hn => absurd (by simp [hb, hop]) hn⟩
          | true =>
            exact ⟨by simp [hb, hop],
              fun _ => ⟨⟨[DEvent.redistribute], [DEvent.resetOpacity],
                Or.inr rfl, Or.inr rfl, by simp [hb, hop]⟩, rfl⟩,
              fun hn => absurd (by simp [hb, hop]) hn⟩
    · simp only [Except.ok.injEq, Prod.mk.injEq] at h
      obtain ⟨hs, hev⟩ := h
      subst hs
      subst hev
      cases hop : check_update_at_this_iter iteration args.bsz
          args.opacity_reset_interval 0 with
      | false =>
        exact ⟨by simp [hop], fun hmem => absurd hmem (by simp [hop]), fun _ => rfl⟩
      | true =>
        exact ⟨by simp [hop], fun hmem => absurd hmem (by simp [hop]), fun _ => rfl⟩
  · simp only [Except.ok.injEq, Prod.mk.injEq] at h
    obtain ⟨hs, hev⟩ := h
    subst hs
    subst hev
    exact ⟨by simp, fun hmem => absurd hmem (by simp), fun _ => rfl⟩

/-- Witness for C5's amended theorem at a concrete call whose gathered current
memory (18 GB) sets the latch. -/
theorem memory_guard_gather_current_witness :
    (DEvent.allGatherMemory ∈
        [DEvent.densifyAndPrune, DEvent.allGatherMemory,
          DEvent.incDensifyIter] ↔
      DEvent.densifyAndPrune ∈
        [DEvent.densifyAndPrune, DEvent.allGatherMemory,
          DEvent.incDensifyIter]) ∧
    (DEvent.densifyAndPrune ∈
        [DEvent.densifyAndPrune, DEvent.allGatherMemory,
          DEvent.incDensifyIter] →
      (∃ r o, (r = [] ∨ r = [DEvent.redistribute]) ∧
        (o = [] ∨ o = [DEvent.resetOpacity]) ∧
        [DEvent.densifyAndPrune, DEvent.allGatherMemory,
            DEvent.incDensifyIter] = [DEvent.densifyAndPrune] ++ r ++
          [DEvent.allGatherMemory, DEvent.incDensifyIter] ++ o) ∧
      (⟨12, 1, true⟩ : DensifyState).disableAuto =
        (if listMax [18] > mkRat 35 2 then true
          else (⟨10, 0, false⟩ : DensifyState).disableAuto)) ∧
    (DEvent.densifyAndPrune ∉
        [DEvent.densifyAndPrune, DEvent.allGatherMemory,
          DEvent.incDensifyIter] →
      (⟨12, 1, true⟩ : DensifyState).disableAuto =
        (⟨10, 0, false⟩ : DensifyState).disableAuto) :=
  memory_guard_gather_current exampleArgs 1 (fun n => n + 2) (fun n => n)
    [18] [18] ⟨10, 0, false⟩ ⟨12, 1, true⟩
    [DEvent.densifyAndPrune, DEvent.allGatherMemory, DEvent.incDensifyIter]
    (by decide)

/- ### Strategy measurement (train.py lines 319-335)

After the all-gather of per-worker running times over the DEFAULT group
(line 325), the loop walks each data-parallel rank and accumulation index,
builds a timing vector with one entry per model-parallel rank, calls
`update_stats` on the view's strategy and then `finish_strategy` on its
history.  `allRunningTime r i` stands for the gathered running time that
global rank `r` reported for accumulation step `i`. -/

inductive StratEvent
  | updateStats (viewIdx : ℕ) (times : List ℚ)
  | finishStrategy (viewIdx : ℕ)
deriving DecidableEq

/-- The timing vector handed to `update_stats` (train.py lines 331-333):
entry `mp_rk` is `all_running_time[dp_rk * MP_GROUP.size() + mp_rk][accum_idx]`. -/
def times_cross_mp (mpSize : ℕ) (allRunningTime : ℕ → ℕ → ℚ)
    (dp_rk accum : ℕ) : List ℚ :=
  (List.range mpSize).map (fun mp_rk => allRunningTime (dp_rk * mpSize + mp_rk) accum)

/-- The loop order of train.py lines 328-330: data-parallel rank outer,
accumulation index inner. -/
def dp_accum_pairs (dpSize nSamples : ℕ) : List (ℕ × ℕ) :=
  (List.range dpSize).flatMap (fun dp_rk =>
    (List.range nSamples).map (fun accum => (dp_rk, accum)))

/-- The sequence of strategy calls issued by train.py lines 328-335. -/
def strategy_update_events (dpSize mpSize nSamples : ℕ)
    (allRunningTime : ℕ → ℕ → ℚ) : List StratEvent :=
  (dp_accum_pairs dpSize nSamples).flatMap (fun p =>
    [StratEvent.updateStats (p.1 * nSamples + p.2)
        (times_cross_mp mpSize allRunningTime p.1 p.2),
      StratEvent.finishStrategy (p.1 * nSamples + p.2)])

theorem bind_pairs_get {α β : Type} (l : List α) (f g : α → β) (k : ℕ) :
    ((l.flatMap (fun x => [f x, g x])).get? (2 * k) = (l.get? k).map f) ∧
    ((l.flatMap (fun x => [f x, g x])).get? (2 * k + 1) = (l.get? k).map g) := by
  induction l generalizing k with
  | nil => simp
  | cons a t ih =>
    cases k with
    | zero => simp
    | succ k =>
      have e1 : 2 * (k + 1) = 2 * k + 1 + 1 := by ring
      have e2 : 2 * (k + 1) + 1 = 2 * k + 1 + 1 + 1 := by ring
      rw [List.flatMap_cons, e2, e1]
      simp only [List.cons_append, List.nil_append, List.get?_cons_succ]
      exact ih k

theorem times_cross_mp_length (mpSize : ℕ) (a : ℕ → ℕ → ℚ) (d acc : ℕ) :
    (times_cross_mp mpSize a d acc).length = mpSize := by
  simp [times_cross_mp]

theorem times_cross_mp_get (mpSize : ℕ) (a : ℕ → ℕ → ℚ) (d acc j : ℕ)
    (hj : j < mpSize) :
    (times_cross_mp mpSize a d acc).get? j = some (a (d * mpSize + j) acc) := by
  simp [times_cross_mp, List.get?_eq_getElem?, List.getElem?_range, hj]

/-- C6: every `finish_strategy` in the measurement loop is immediately
preceded by `update_stats` on the same view, with a timing vector of length
exactly the model-parallel group size whose entry `j` is the all-gathered
running time of global rank `dp_rk * mpSize + j` — the view's model-parallel
group — at that view's accumulation index. -/
theorem finish_strategy_measured (dpSize mpSize nSamples : ℕ)
    (allRunningTime : ℕ → ℕ → ℚ) (k v : ℕ)
    (h : (strategy_update_events dpSize mpSize nSamples allRunningTime).get? k =
      some (StratEvent.finishStrategy v)) :
    1 ≤ k ∧
    ∃ dp_rk accum, dp_rk < dpSize ∧ accum < nSamples ∧
      v = dp_rk * nSamples + accum ∧
      (strategy_update_events dpSize mpSize nSamples allRunningTime).get? (k - 1) =
        some (StratEvent.updateStats v
          (times_cross_mp mpSize allRunningTime dp_rk accum)) ∧
      (times_cross_mp mpSize allRunningTime dp_rk accum).length = mpSize ∧
      (∀ j, j < mpSize →
        (times_cross_mp mpSize allRunningTime dp_rk accum).get? j =
          some (allRunningTime (dp_rk * mpSize + j) accum)) := by
  have hpar := Nat.div_add_mod k 2
  have hm2 := Nat.mod_lt k (by omega : 0 < 2)
  have hpair := bind_pairs_get (dp_accum_pairs dpSize nSamples)
    (fun p : ℕ × ℕ => StratEvent.updateStats (p.1 * nSamples + p.2)
      (times_cross_mp mpSize allRunningTime p.1 p.2))
    (fun p : ℕ × ℕ => StratEvent.finishStrategy (p.1 * nSamples + p.2)) (k / 2)
  rcases Nat.eq_zero_or_pos (k % 2) with hodd | hodd
  · exfalso
    have hk : k = 2 * (k / 2) := by omega
    rw [show strategy_update_events dpSize mpSize nSamples allRunningTime =
      (dp_accum_pairs dpSize nSamples).flatMap
        (fun p => [StratEvent.updateStats (p.1 * nSamples + p.2)
            (times_cross_mp mpSize allRunningTime p.1 p.2),
          StratEvent.finishStrategy (p.1 * nSamples + p.2)]) from rfl, hk,
      hpair.1] at h
    cases hg : (dp_accum_pairs dpSize nSamples).get? (k / 2) with
    | none => rw [hg] at h; simp at h
    | some p => rw [hg] at h; simp at h
  · have hk : k = 2 * (k / 2) + 1 := by omega
    refine ⟨by omega, ?_⟩
    rw [show strategy_update_events dpSize mpSize nSamples allRunningTime =
      (dp_accum_pairs dpSize nSamples).flatMap
        (fun p => [StratEvent.updateStats (p.1 * nSamples + p.2)
            (times_cross_mp mpSize allRunningTime p.1 p.2),
          StratEvent.finishStrategy (p.1 * nSamples + p.2)]) from rfl, hk,
      hpair.2] at h
    cases hg : (dp_accum_pairs dpSize nSamples).get? (k / 2) with
    | none => rw [hg] at h; simp at h
    | some p =>
      rw [hg] at h
      simp only [Option.map_some', Option.some.injEq,
        StratEvent.finishStrategy.injEq] at h
      have hv : p.1 * nSamples + p.2 = v := h
      have hpmem : p ∈ dp_accum_pairs dpSize nSamples := List.get?_mem hg
      have hbounds : p.1 < dpSize ∧ p.2 < nSamples := by
        simp only [dp_accum_pairs, List.mem_flatMap, List.mem_map,
          List.mem_range] at hpmem
        obtain ⟨d, hd, acc, hacc, hpe⟩ := hpmem
        rw [← hpe]
        exact ⟨hd, hacc⟩
      refine ⟨p.1, p.2, hbounds.1, hbounds.2, hv.symm, ?_,
        times_cross_mp_length mpSize allRunningTime p.1 p.2,
        fun j hj => times_cross_mp_get mpSize allRunningTime p.1 p.2 j hj⟩
      rw [show strategy_update_events dpSize mpSize nSamples allRunningTime =
        (dp_accum_pairs dpSize nSamples).flatMap
          (fun p => [StratEvent.updateStats (p.1 * nSamples + p.2)
              (times_cross_mp mpSize allRunningTime p.1 p.2),
            StratEvent.finishStrategy (p.1 * nSamples + p.2)]) from rfl,
        show k - 1 = 2 * (k / 2) by omega, hpair.1, hg]
      simp only [Option.map_some', hv]

/-- Witness for C6 at `dpSize = 2, mpSize = 2, nSamples = 1`, position 1. -/
theorem finish_strategy_measured_witness :
    1 ≤ 1 ∧
    ∃ dp_rk accum, dp_rk < 2 ∧ accum < 1 ∧
      0 = dp_rk * 1 + accum ∧
      (strategy_update_events 2 2 1 (fun r i => (r : ℚ) + i)).get? (1 - 1) =
        some (StratEvent.updateStats 0
          (times_cross_mp 2 (fun r i => (r : ℚ) + i) dp_rk accum)) ∧
      (times_cross_mp 2 (fun r i => (r : ℚ) + i) dp_rk accum).length = 2 ∧
      (∀ j, j < 2 →
        (times_cross_mp 2 (fun r i => (r : ℚ) + i) dp_rk accum).get? j =
          some ((((dp_rk * 2 + j : ℕ) : ℚ) + ((accum : ℕ) : ℚ)))) :=
  finish_strategy_measured 2 2 1 (fun r i => (r : ℚ) + i) 1 0 (by decide)

/- ### Checkpoint restore gate (train.py lines 148-158) -/

/-- The checkpoint restore logic of train.py lines 148-158: when
`start_checkpoint` is nonempty, Python asserts that the number of files in the
folder equals `DEFAULT_GROUP.size()`, then appends a trailing slash if missing
and loads `chkpnt<rank>.pth`.  Returns the file this rank restores
(`none` when no checkpoint is configured). -/
def restore_checkpoint_file (start_checkpoint : String)
    (number_files world_size rank : ℕ) : Except String (Option String) :=
  if start_checkpoint = "" then Except.ok none
  else if number_files ≠ world_size then
    Except.error "The number of files in the checkpoint folder must be equal to the number of processes."
  else
    let folder := if start_checkpoint.back ≠ '/'
      then start_checkpoint ++ "/" else start_checkpoint
    Except.ok (some (folder ++ "chkpnt" ++ toString rank ++ ".pth"))

/-- C9: with `start_checkpoint` set, a checkpoint folder whose file count
differs from the current world size is rejected by an assertion before any
restore, and otherwise each rank restores exactly its own per-rank file
`chkpnt<rank>.pth`. -/
theorem checkpoint_worker_count_guard (cp : String)
    (number_files world_size rank : ℕ) (hcp : cp ≠ "") :
    (number_files ≠ world_size →
      restore_checkpoint_file cp number_files world_size rank =
        Except.error "The number of files in the checkpoint folder must be equal to the number of processes.") ∧
    (number_files = world_size →
      restore_checkpoint_file cp number_files world_size rank =
        Except.ok (some ((if cp.back ≠ '/' then cp ++ "/" else cp) ++
          "chkpnt" ++ toString rank ++ ".pth"))) := by
  constructor
  · intro hne
    unfold restore_checkpoint_file
    rw [if_neg hcp, if_pos hne]
  · intro heq
    unfold restore_checkpoint_file
    rw [if_neg hcp, if_neg (by omega)]

/-- Witness for C9 at folder `ckpt` with 2 files, world size 2 and 3. -/
theorem checkpoint_worker_count_guard_witness :
    (restore_checkpoint_file "ckpt" 2 3 1 =
      Except.error "The number of files in the checkpoint folder must be equal to the number of processes.") ∧
    (restore_checkpoint_file "ckpt" 2 2 1 =
      Except.ok (some (("ckpt/" : String) ++ "chkpnt" ++ toString 1 ++ ".pth"))) :=
  ⟨(checkpoint_worker_count_guard "ckpt" 2 3 1 (by decide)).1 (by decide),
   (checkpoint_worker_count_guard "ckpt" 2 2 1 (by decide)).2 rfl⟩

/- ### Startup order of collectives and the batch-size check
(train.py lines 538-582, 176-213; general_utils.py lines 144-197) -/

inductive MainEv
  | initProcessGroup
  | newGroup
  | barrier
  | bszDivisibleCheck (ok : Bool)
deriving DecidableEq

/-- The sequence of process-group creations, collective calls, and the
batch-size divisibility assert, in program order: for `WORLD_SIZE > 1`,
`init_distributed` calls `init_process_group` then creates `mp_size`
data-parallel groups, `dp_size` model-parallel groups and
`WORLD_SIZE // gpus_per_node` in-node groups (general_utils.py lines
150-189); `__main__` then issues a barrier (train.py line 568); inside the
first training-loop iteration an optional `more_sync` barrier (line 179)
precedes the assert `bsz % dp_size == 0` (line 213).  A failing assert kills
the process, so the trace is modelled up to that point. -/
def main_startup_trace (world_size dp_size bsz gpus_per_node : ℕ)
    (more_sync : Bool) : List MainEv :=
  (if 1 < world_size then
    [MainEv.initProcessGroup] ++
      List.replicate (world_size / dp_size) MainEv.newGroup ++
      List.replicate dp_size MainEv.newGroup ++
      List.replicate (world_size / gpus_per_node) MainEv.newGroup ++
      [MainEv.barrier]
   else []) ++
  (if more_sync then [MainEv.barrier] else []) ++
  [MainEv.bszDivisibleCheck (bsz % dp_size == 0)]

/-- C8 counterexample: with world size 2, `dp_size = 2`, `bsz = 3`, process
groups are created (positions 1-4) and a barrier issued (position 5) before
the failing divisibility check (position 6, the final event): the condition
is not detected before collectives are opened. -/
theorem bsz_check_after_collectives_counterexample :
    main_startup_trace 2 2 3 2 false =
      [MainEv.initProcessGroup, MainEv.newGroup, MainEv.newGroup,
        MainEv.newGroup, MainEv.newGroup, MainEv.barrier,
        MainEv.bszDivisibleCheck false] ∧
    3 % 2 ≠ 0 ∧
    (main_startup_trace 2 2 3 2 false).get? 1 = some MainEv.newGroup ∧
    (main_startup_trace 2 2 3 2 false).get? 6 =
      some (MainEv.bszDivisibleCheck false) := by
  refine ⟨by decide, by decide, by decide, by decide⟩

/-- C8 (amended): in distributed runs, a batch size not divisible by the
data-parallel size makes the run fail fatally at the `assert` in the first
training-loop iteration — the failing check is the last event of the trace —
but only after process groups have been created and a barrier collective has
been issued, not before any collective is opened. -/
theorem bsz_check_fatal_after_groups (W dp bsz g : ℕ) (ms : Bool)
    (hW : 1 < W) (hdp : 0 < dp) (hbsz : bsz % dp ≠ 0) :
    ∃ front, main_startup_trace W dp bsz g ms =
        front ++ [MainEv.bszDivisibleCheck false] ∧
      MainEv.newGroup ∈ front ∧ MainEv.barrier ∈ front := by
  have hfalse : (bsz % dp == 0) = false := by
    simp [hbsz]
  refine ⟨(if 1 < W then
    [MainEv.initProcessGroup] ++
      List.replicate (W / dp) MainEv.newGroup ++
      List.replicate dp MainEv.newGroup ++
      List.replicate (W / g) MainEv.newGroup ++
      [MainEv.barrier]
   else []) ++ (if ms then [MainEv.barrier] else []), ?_, ?_, ?_⟩
  · rw [main_startup_trace, hfalse, List.append_assoc]
  · rw [if_pos hW]
    simp [List.mem_replicate]
    omega
  · rw [if_pos hW]
    simp

/-- Witness for C8's amended theorem at `W = 2, dp = 2, bsz = 3`. -/
theorem bsz_check_fatal_after_groups_witness :
    ∃ front, main_startup_trace 2 2 3 2 false =
        front ++ [MainEv.bszDivisibleCheck false] ∧
      MainEv.newGroup ∈ front ∧ MainEv.barrier ∈ front :=
  bsz_check_fatal_after_groups 2 2 3 2 false (by decide) (by decide) (by decide)

/- ### Gradient synchronization for replicated entities
(train.py lines 296-310, 451-453) -/

/-- SUM all-reduce over a group of size `k` (`torch.distributed.all_reduce`
with `ReduceOp.SUM`, as issued over `MP_GROUP` at train.py lines 308-309):
every member ends with the sum of all members' contributions. -/
def allReduceSum (k : ℕ) (contrib : Fin k → ℚ) : Fin k → ℚ :=
  fun _ => ∑ i, contrib i

/-- Modelled from the spec: `GaussianModel.sync_gradients_for_replicated_3dgs_storage`
(called at train.py line 306) lives outside the studied source tree; spec §4.4
describes it: the gradient of every entity computed on more than one
model-parallel worker is SUM-all-reduced across the model-parallel group,
while non-replicated entities are left untouched.  `grads w e` is worker `w`'s
post-backward local gradient contribution for entity `e`. -/
def sync_gradients_for_replicated_3dgs_storage (k : ℕ) (E : Type)
    (replicated : E → Bool) (grads : Fin k → E → ℚ) : Fin k → E → ℚ :=
  fun w e =>
    if replicated e then allReduceSum k (fun i => grads i e) w else grads w e

inductive TrainPhase
  | backward
  | syncGradients
  | strategyUpdate
  | allgatherLoss
  | densificationPhase
  | saveAndCheckpoint
  | optimizerStep
deriving DecidableEq

/-- The phase order of one training-loop iteration (train.py lines 217-455):
`num_samples_per_dp_worker` micro-step backward passes (line 274), then —
inside the `torch.no_grad()` block opened at line 296 — gradient sync
(lines 305-310), strategy stats update (317-337), loss all-gather and
logging (344-360), densification (374), saving (382-406), and the optimizer
step (409-453). -/
def iteration_phases (nMicro : ℕ) : List TrainPhase :=
  List.replicate nMicro TrainPhase.backward ++
    [TrainPhase.syncGradients, TrainPhase.strategyUpdate,
      TrainPhase.allgatherLoss, TrainPhase.densificationPhase,
      TrainPhase.saveAndCheckpoint, TrainPhase.optimizerStep]

/-- Which phases run inside the `with torch.no_grad():` context opened at
train.py line 296 (everything after the micro-step loop). -/
def in_no_grad : TrainPhase → Bool
  | TrainPhase.backward => false
  | _ => true

theorem iteration_phases_get (nMicro i : ℕ) :
    (iteration_phases nMicro).get? i =
      if i < nMicro then some TrainPhase.backward
      else [TrainPhase.syncGradients, TrainPhase.strategyUpdate,
        TrainPhase.allgatherLoss, TrainPhase.densificationPhase,
        TrainPhase.saveAndCheckpoint, TrainPhase.optimizerStep].get? (i - nMicro) := by
  unfold iteration_phases
  rcases Nat.lt_or_ge i nMicro with h | h
  · rw [if_pos h, List.get?_append (by simp [h])]
    simp [List.get?_eq_getElem?, List.getElem?_replicate, h]
  · rw [if_neg (by omega), List.get?_append_right (by simp [h])]
    simp

theorem tail_phase_sync (m : ℕ)
    (h : [TrainPhase.syncGradients, TrainPhase.strategyUpdate,
      TrainPhase.allgatherLoss, TrainPhase.densificationPhase,
      TrainPhase.saveAndCheckpoint, TrainPhase.optimizerStep].get? m =
      some TrainPhase.syncGradients) : m = 0 := by
  match m with
  | 0 => rfl
  | 1 => simp at h
  | 2 => simp at h
  | 3 => simp at h
  | 4 => simp at h
  | 5 => simp at h
  | m + 6 => simp at h

theorem tail_phase_optimizer (m : ℕ)
    (h : [TrainPhase.syncGradients, TrainPhase.strategyUpdate,
      TrainPhase.allgatherLoss, TrainPhase.densificationPhase,
      TrainPhase.saveAndCheckpoint, TrainPhase.optimizerStep].get? m =
      some TrainPhase.optimizerStep) : m = 5 := by
  match m with
  | 0 => simp at h
  | 1 => simp at h
  | 2 => simp at h
  | 3 => simp at h
  | 4 => simp at h
  | 5 => rfl
  | m + 6 => simp at h

theorem tail_phase_no_backward (m : ℕ) :
    [TrainPhase.syncGradients, TrainPhase.strategyUpdate,
      TrainPhase.allgatherLoss, TrainPhase.densificationPhase,
      TrainPhase.saveAndCheckpoint, TrainPhase.optimizerStep].get? m ≠
      some TrainPhase.backward := by
  match m with
  | 0 => simp
  | 1 => simp
  | 2 => simp
  | 3 => simp
  | 4 => simp
  | 5 => simp
  | m + 6 => simp

/-- C3: the per-entity gradient sync sums each replicated entity's gradient
over the model-parallel group with a SUM all-reduce, leaving every member
with the identical summed value, and leaves non-replicated entities'
gradients untouched; in the iteration's phase order it runs strictly after
every backward pass and strictly before the optimizer step, inside the
no-autograd context. -/
theorem gradient_sync_between_backward_and_step :
    (∀ (k : ℕ) (E : Type) (replicated : E → Bool) (grads : Fin k → E → ℚ)
        (w w' : Fin k) (e : E),
      (replicated e = true →
        sync_gradients_for_replicated_3dgs_storage k E replicated grads w e =
          ∑ i, grads i e ∧
        sync_gradients_for_replicated_3dgs_storage k E replicated grads w e =
          sync_gradients_for_replicated_3dgs_storage k E replicated grads w' e) ∧
      (replicated e = false →
        sync_gradients_for_replicated_3dgs_storage k E replicated grads w e =
          grads w e)) ∧
    (∀ nMicro i j, (iteration_phases nMicro).get? i = some TrainPhase.backward →
      (iteration_phases nMicro).get? j = some TrainPhase.syncGradients →
      i < j) ∧
    (∀ nMicro i j,
      (iteration_phases nMicro).get? i = some TrainPhase.syncGradients →
      (iteration_phases nMicro).get? j = some TrainPhase.optimizerStep →
      i < j) ∧
    (in_no_grad TrainPhase.syncGradients = true ∧
      in_no_grad TrainPhase.backward = false) := by
  refine ⟨?_, ?_, ?_, rfl, rfl⟩
  · intro k E replicated grads w w' e
    constructor
    · intro hrep
      unfold sync_gradients_for_replicated_3dgs_storage allReduceSum
      rw [if_pos hrep, if_pos hrep]
      exact ⟨rfl, rfl⟩
    · intro hrep
      unfold sync_gradients_for_replicated_3dgs_storage
      rw [if_neg (by rw [hrep]; exact fun hc => absurd hc (by simp))]
  · intro nMicro i j hi hj
    rw [iteration_phases_get] at hi hj
    split at hi
    · split at hj
      · exact absurd hj (by simp)
      · have := tail_phase_sync (j - nMicro) hj
        omega
    · exact absurd hi (tail_phase_no_backward (i - nMicro))
  · intro nMicro i j hi hj
    rw [iteration_phases_get] at hi hj
    split at hi
    · exact absurd hi (by simp)
    · split at hj
      · exact absurd hj (by simp)
      · have h1 := tail_phase_sync (i - nMicro) hi
        have h2 := tail_phase_optimizer (j - nMicro) hj
        omega

/-- Witness for C3: three workers replicate entity 0 with gradients 1 each —
after sync all hold 3 — entity 1 is not replicated and keeps its gradient;
with two micro-steps, backward at position 1 precedes sync at position 2,
which precedes the optimizer step at position 7. -/
theorem gradient_sync_between_backward_and_step_witness :
    (sync_gradients_for_replicated_3dgs_storage 3 ℕ (fun e => e == 0)
        (fun _ _ => (1 : ℚ)) 0 0 = ∑ _i : Fin 3, (1 : ℚ) ∧
      sync_gradients_for_replicated_3dgs_storage 3 ℕ (fun e => e == 0)
        (fun _ _ => (1 : ℚ)) 0 0 =
      sync_gradients_for_replicated_3dgs_storage 3 ℕ (fun e => e == 0)
        (fun _ _ => (1 : ℚ)) 1 0) ∧
    (sync_gradients_for_replicated_3dgs_storage 3 ℕ (fun e => e == 0)
        (fun _ _ => (1 : ℚ)) 0 1 = (1 : ℚ)) ∧
    1 < 2 ∧ 2 < 7 :=
  ⟨(gradient_sync_between_backward_and_step.1 3 ℕ (fun e => e == 0)
      (fun _ _ => (1 : ℚ)) 0 1 0).1 (by decide),
   (gradient_sync_between_backward_and_step.1 3 ℕ (fun e => e == 0)
      (fun _ _ => (1 : ℚ)) 0 1 1).2 (by decide),
   gradient_sync_between_backward_and_step.2.1 2 1 2 (by decide) (by decide),
   gradient_sync_between_backward_and_step.2.2.1 2 2 7 (by decide) (by decide)⟩

end GrendelGS
